import Mathlib

/-!
# soccer-stats-app: the player repository and its HTTP glue

A shallow embedding of `main.go`: the `Player` record, `getPlayers`
(query, row loop, timestamp parsing, deferred cursor close), the `GET /`
handler, `createTables` and the start-up sequence of `main`.

The program talks to three collaborators whose code is not part of the
repository: Go's `time.Parse`, `database/sql` with the SQLite driver, and the
Fiber web framework.  Each is represented by the part of its documented
behaviour the program relies on; every such definition says so in its
comment.
-/

namespace SoccerStats

/-! ## Go values -/

/-- A Go `error` value (non-nil); only its message is kept. -/
structure GoError where
  msg : String
  deriving DecidableEq, Repr

/-- A `time.Time` in UTC, by its civil fields.  `time.Parse` with a layout
that has no zone builds its result with `Date(year, month, day, hour, min,
sec, nsec, UTC)` from fields it has already range-checked, so the fields
determine the instant. -/
structure Time where
  year : Int
  month : Nat
  day : Nat
  hour : Nat
  min : Nat
  sec : Nat
  nsec : Nat
  deriving DecidableEq, Repr

/-- The zero `time.Time{}`: January 1, year 1, 00:00:00.000000000 UTC. -/
def Time.zero : Time := ⟨1, 1, 1, 0, 0, 0, 0⟩

/-- The record `type Player struct { ID int; Name string; CreatedAt time.Time }`. -/
structure Player where
  ID : Int
  Name : String
  CreatedAt : Time
  deriving DecidableEq, Repr

/-! ## `time.Parse("2006-01-02 15:04:05", value)`

The helpers below follow the functions of Go's `time` package that the call
reaches (`isDigit`, `getnum`, `atoi`, `leadingInt`, `skip`, `cutspace`,
`parseNanoseconds`, `isLeap`, `daysIn`).  Go works on bytes; every byte these
functions test for is ASCII, so testing characters gives the same
accept/reject decision and the same numbers. -/

/-- The byte test of Go's `isDigit`: `'0' <= c && c <= '9'`. -/
def isDigitChar (c : Char) : Bool :=
  decide ('0'.toNat ≤ c.toNat) && decide (c.toNat ≤ '9'.toNat)

/-- Go: `isDigit(s, i)`: index `i` is in range and holds `'0'..'9'`. -/
def isDigit (s : List Char) (i : Nat) : Bool :=
  match s.get? i with
  | some c => isDigitChar c
  | none => false

/-- Value of a digit byte, `c - '0'`. -/
def digitVal (c : Char) : Nat := c.toNat - '0'.toNat

/-- Go: `getnum(s, fixed)`: a one- or two-digit number at the front of `s`;
with `fixed` the number must have two digits. -/
def getnum (s : List Char) (fixed : Bool) : Option (Nat × List Char) :=
  if !isDigit s 0 then none
  else if !isDigit s 1 then
    if fixed then none
    else some (digitVal (s.getD 0 '0'), s.drop 1)
  else some (digitVal (s.getD 0 '0') * 10 + digitVal (s.getD 1 '0'), s.drop 2)

/-- Go: `leadingInt(s)`: the leading run of digits as a number and the rest;
fails when the number passes `1<<63`. The accumulator `x` is the value read
so far. -/
def leadingInt : List Char → Nat → Option (Nat × List Char)
  | [], x => some (x, [])
  | c :: rest, x =>
    if c.toNat < '0'.toNat ∨ c.toNat > '9'.toNat then some (x, c :: rest)
    else if x > 2 ^ 63 / 10 then none
    else
      let x1 := x * 10 + c.toNat - '0'.toNat
      if x1 > 2 ^ 63 then none else leadingInt rest x1

/-- Go: `atoi(s)`: optional sign, then digits up to the end of `s`. -/
def atoi (s : List Char) : Option Int :=
  let neg := decide (s.head? = some '-')
  let s1 := if s.head? = some '-' ∨ s.head? = some '+' then s.drop 1 else s
  match leadingInt s1 0 with
  | none => none
  | some (q, rem) =>
    if rem ≠ [] then none
    else if neg then some (-(q : Int)) else some (q : Int)

/-- Go: `cutspace(s)`: drop the leading spaces. -/
def cutspace (s : List Char) : List Char := s.dropWhile (fun c => c == ' ')

/-- Go: `skip(value, prefix)`: consume the layout text `prefix` from the front
of `value`.  A run of spaces in the layout matches any run of spaces in the
value (also an empty one at the end of the value); any other byte must be
matched exactly.  `fuel` bounds the loop by the length of the prefix. -/
def skipAux : Nat → List Char → List Char → Option (List Char)
  | _, value, [] => some value
  | 0, _, _ :: _ => none
  | fuel + 1, value, p :: ps =>
    if p = ' ' then
      match value with
      | v :: vs =>
        if v ≠ ' ' then none
        else skipAux fuel (cutspace (v :: vs)) (cutspace (p :: ps))
      | [] => skipAux fuel (cutspace []) (cutspace (p :: ps))
    else
      match value with
      | [] => none
      | v :: vs => if v ≠ p then none else skipAux fuel vs ps

/-- Go: `skip(value, prefix)`, with the loop bound fixed. -/
def skip (value pre : List Char) : Option (List Char) :=
  skipAux pre.length value pre

/-- Go: `commaOrPeriod(b)`. -/
def commaOrPeriod (c : Char) : Bool := c == '.' || c == ','

/-- Go: `parseNanoseconds(value, nbytes)`: `value[0]` is the separator and
`value[1:nbytes]` the digits; digits after the ninth are dropped and the
number is scaled to nanoseconds. -/
def parseNanoseconds (value : List Char) (nbytes : Nat) : Option Nat :=
  if !(commaOrPeriod (value.getD 0 ' ')) then none
  else
    let nb := if nbytes > 10 then 10 else nbytes
    let v := if nbytes > 10 then value.take 10 else value
    match atoi ((v.take nb).drop 1) with
    | none => none
    | some ns =>
      if ns < 0 then none
      else some (ns.toNat * 10 ^ (10 - nb))

/-- Go: `isLeap(year)`. -/
def isLeap (year : Int) : Bool :=
  year % 4 == 0 && (year % 100 != 0 || year % 400 == 0)

/-- Go: `daysIn(m, year)` for a month `1..12`. -/
def daysIn (m : Nat) (year : Int) : Nat :=
  if m = 2 then (if isLeap year then 29 else 28)
  else if m = 4 ∨ m = 6 ∨ m = 9 ∨ m = 11 then 30
  else 31

/-- The fractional second Go reads after the seconds field when the layout
has none: a `.` or `,` followed by at least one digit, then all digits that
follow.  Returns the nanoseconds and the rest of the value. -/
def fracSecond (value : List Char) : Option (Nat × List Char) :=
  if value.length ≥ 2 ∧ commaOrPeriod (value.getD 0 ' ') = true ∧ isDigit value 1 = true then
    let n := 2 + ((value.drop 2).takeWhile isDigitChar).length
    match parseNanoseconds value n with
    | none => none
    | some nsec => some (nsec, value.drop n)
  else some (0, value)

/-- Go: `time.Parse("2006-01-02 15:04:05", value)`; `none` stands for a
non-nil error (Go then returns `Time{}`).  The layout splits into the chunks
`2006`, `-` `01`, `-` `02`, space `15`, `:` `04`, `:` `05`, and the steps
below are the cases of `parse` for these chunks in order: four-digit year,
two-digit month in `1..12`, two-digit day, one- or two-digit hour below 24,
two-digit minute and second below 60, an optional fractional second, no text
left over, and the day checked against the month's length. -/
def timeParse (input : String) : Option Time :=
  let value := input.toList
  -- stdLongYear
  if value.length < 4 ∨ isDigit value 0 = false then none else
  match atoi (value.take 4) with
  | none => none
  | some year =>
  -- "-" stdZeroMonth
  match skip (value.drop 4) ['-'] with
  | none => none
  | some value =>
  match getnum value true with
  | none => none
  | some (month, value) =>
  if month ≤ 0 ∨ 12 < month then none else
  -- "-" stdZeroDay
  match skip value ['-'] with
  | none => none
  | some value =>
  match getnum value true with
  | none => none
  | some (day, value) =>
  -- " " stdHour
  match skip value [' '] with
  | none => none
  | some value =>
  match getnum value false with
  | none => none
  | some (hour, value) =>
  if 24 ≤ hour then none else
  -- ":" stdZeroMinute
  match skip value [':'] with
  | none => none
  | some value =>
  match getnum value true with
  | none => none
  | some (min, value) =>
  if 60 ≤ min then none else
  -- ":" stdZeroSecond
  match skip value [':'] with
  | none => none
  | some value =>
  match getnum value true with
  | none => none
  | some (sec, value) =>
  if 60 ≤ sec then none else
  match fracSecond value with
  | none => none
  | some (nsec, value) =>
  -- end of layout: extra text is an error
  if value ≠ [] then none else
  -- validate the day of the month
  if day < 1 ∨ day > daysIn month year then none else
  some ⟨year, month, day, hour, min, sec, nsec⟩

/-! ## The database handle as `getPlayers` sees it

`db.Query` either fails or hands back a cursor.  The cursor delivers rows one
by one; `rows.Scan` on a delivered row either fills the three destinations or
fails (for instance on a NULL `created_at`, which cannot be stored in a Go
`string`); when `rows.Next()` returns false, `rows.Err()` tells whether the
iteration ended because the rows were exhausted or because of an error. -/

/-- What `rows.Scan(&p.ID, &p.Name, &createdAtStr)` does on one delivered row. -/
inductive ScanResult where
  | ok (id : Int) (name : String) (createdAtStr : String)
  | fail (err : GoError)
  deriving DecidableEq, Repr

/-- An open cursor `*sql.Rows`: the rows `rows.Next()` will deliver, in order,
and the value of `rows.Err()` once `rows.Next()` has returned false. -/
structure Rows where
  pending : List ScanResult
  iterErr : Option GoError
  deriving DecidableEq, Repr

/-- The two results of `db.Query(...)`: `(nil, err)` or `(rows, nil)`. -/
inductive QueryResult where
  | failed (err : GoError)
  | opened (rows : Rows)
  deriving DecidableEq, Repr

/-- Lines written with `log.Printf` by `getPlayers` and the `GET /` handler. -/
inductive LogEntry where
  | parseWarning (createdAtStr : String) (id : Int)
  | gettingPlayers (err : GoError)
  deriving DecidableEq, Repr

/-- The process state `getPlayers` touches: how many cursors (each holding a
pooled connection) are open on the global `db`, and the log. -/
structure World where
  openCursors : Nat
  log : List LogEntry
  deriving DecidableEq, Repr

/-- How the `for rows.Next()` loop is left. -/
inductive LoopExit where
  | scanFailed (err : GoError)
  | exhausted (players : List Player)
  deriving DecidableEq, Repr

/-- The loop of `getPlayers` (lines 107-121) over the rows the cursor
delivers, with `players` the slice built so far.  A failed scan leaves the
function; a failed `time.Parse` logs a warning and stores the `Time{}` that
`time.Parse` returns with its error. -/
def rowLoop : List ScanResult → List Player → List LogEntry → LoopExit × List LogEntry
  | [], players, log => (.exhausted players, log)
  | .fail err :: _, _, log => (.scanFailed err, log)
  | .ok id name createdAtStr :: rest, players, log =>
    match timeParse createdAtStr with
    | some t => rowLoop rest (players ++ [⟨id, name, t⟩]) log
    | none =>
      rowLoop rest (players ++ [⟨id, name, Time.zero⟩])
        (log ++ [.parseWarning createdAtStr id])

/-- The Go function `getPlayers() ([]Player, error)`, given what `db.Query`
returns.  In the result `none` is the `nil` slice and `some []` the empty
non-nil slice `[]Player{}`.

A successful `db.Query` opens a cursor.  `database/sql` closes the cursor by
itself when `rows.Next()` returns false, and `rows.Close()` on a closed cursor
does nothing; the deferred `rows.Close()` runs on every return after line 104. -/
def getPlayers (q : QueryResult) (w : World) :
    (Option (List Player) × Option GoError) × World :=
  match q with
  | .failed err => ((none, some err), w)
  | .opened rows =>
    let w1 : World := { w with openCursors := w.openCursors + 1 }
    let (ret, closed, w2) : (Option (List Player) × Option GoError) × Bool × World :=
      match rowLoop rows.pending [] w1.log with
      | (.scanFailed err, log) => ((none, some err), false, { w1 with log := log })
      | (.exhausted players, log) =>
        let w2 : World := { openCursors := w1.openCursors - 1, log := log }
        match rows.iterErr with
        | some err => ((none, some err), true, w2)
        | none => ((some players, none), true, w2)
    -- defer rows.Close()
    (ret, if closed then w2 else { w2 with openCursors := w2.openCursors - 1 })

/-! ## The query `SELECT id, name, created_at FROM players ORDER BY name` -/

/-- A row of `players` as the query selects it, for rows that scan. -/
structure Row where
  id : Int
  name : String
  createdAt : String
  deriving DecidableEq, Repr

/-- SQLite's default BINARY collation, `a <= b`: compare position by position
(`memcmp`), and a proper prefix comes first.  On UTF-8 text the byte order is
the code point order. -/
def binaryLE : List Char → List Char → Bool
  | [], _ => true
  | _ :: _, [] => false
  | a :: as, b :: bs =>
    if a.toNat < b.toNat then true
    else if b.toNat < a.toNat then false
    else binaryLE as bs

/-- Ascending name order of two rows. -/
def nameLE (a b : Row) : Prop := binaryLE a.name.toList b.name.toList = true

instance : DecidableRel nameLE := fun a b =>
  inferInstanceAs (Decidable (binaryLE a.name.toList b.name.toList = true))

/-- The clause `ORDER BY name`: the rows in ascending name order. -/
def orderByName (table : List Row) : List Row :=
  table.insertionSort nameLE

/-- The cursor content for a list of rows that all scan. -/
def deliver (rows : List Row) : List ScanResult :=
  rows.map (fun r => ScanResult.ok r.id r.name r.createdAt)

/-- The result of `db.Query` when the statement runs without a driver error on
a `players` table holding `table` (in insertion order). -/
def queryPlayers (table : List Row) : QueryResult :=
  .opened ⟨deliver (orderByName table), none⟩

/-! ## The `GET /` handler -/

/-- A value stored in a `fiber.Map` by the handler. -/
inductive Binding where
  | str (s : String)
  | players (ps : Option (List Player))
  deriving DecidableEq, Repr

/-- What the handler asks Fiber to send: `c.Status(code).SendString(body)` or
`c.Render(name, bindings)`. -/
inductive Reply where
  | sendString (status : Nat) (body : String)
  | render (name : String) (bindings : List (String × Binding))
  deriving DecidableEq, Repr

/-- Fiber's `fiber.StatusInternalServerError`. -/
def StatusInternalServerError : Nat := 500

/-- The handler registered for `GET /` (lines 49-60). -/
def indexHandler (q : QueryResult) (w : World) : Reply × World :=
  match getPlayers q w with
  | ((_, some err), w1) =>
    (.sendString StatusInternalServerError "Error fetching players",
      { w1 with log := w1.log ++ [.gettingPlayers err] })
  | ((players, none), w1) =>
    (.render "index" [("Title", .str "Player List"), ("Players", .players players)], w1)

/-! ## `createTables` and the storage schema -/

/-- Kinds of named objects in an SQLite schema. -/
inductive ObjKind where
  | table
  | view
  | index
  deriving DecidableEq, Repr

/-- A named schema object; for a table, its column definitions (column name,
declaration) in order. -/
structure SchemaObject where
  kind : ObjKind
  name : String
  columns : List (String × String)
  deriving DecidableEq, Repr

/-- The schema state of the database file. -/
abbrev Schema := List SchemaObject

/-- One statement `CREATE TABLE IF NOT EXISTS name (columns)`. -/
structure CreateTableIfNotExists where
  name : String
  columns : List (String × String)
  deriving DecidableEq, Repr

/-- The first statement of the SQL text in `createTables` (lines 82-86). -/
def playersTable : CreateTableIfNotExists :=
  { name := "players",
    columns := [("id", "INTEGER PRIMARY KEY AUTOINCREMENT"),
                ("name", "TEXT NOT NULL UNIQUE"),
                ("created_at", "TIMESTAMP DEFAULT CURRENT_TIMESTAMP")] }

/-- The second statement of the SQL text in `createTables` (lines 87-91). -/
def matchesTable : CreateTableIfNotExists :=
  { name := "matches",
    columns := [("id", "INTEGER PRIMARY KEY AUTOINCREMENT"),
                ("played_at", "TIMESTAMP"),
                ("created_at", "TIMESTAMP DEFAULT CURRENT_TIMESTAMP")] }

/-- The SQL text passed to `db.Exec` by `createTables` (lines 81-93). -/
def createTablesQuery : List CreateTableIfNotExists := [playersTable, matchesTable]

/-- SQLite compares object names without regard to ASCII case. -/
def sameName (a b : String) : Bool :=
  a.toList.map Char.toLower == b.toList.map Char.toLower

/-- Is there an object of one of the given kinds with this name? -/
def hasObject (s : Schema) (kinds : List ObjKind) (name : String) : Bool :=
  s.any (fun o => decide (o.kind ∈ kinds) && sameName o.name name)

/-- The table a statement creates. -/
def tableObject (st : CreateTableIfNotExists) : SchemaObject :=
  ⟨.table, st.name, st.columns⟩

/-- SQLite's `CREATE TABLE IF NOT EXISTS`: no effect and no error when a table
or view of that name exists; an error when an index of that name exists;
otherwise the table is added. -/
def execCreate (st : CreateTableIfNotExists) (s : Schema) : Except GoError Schema :=
  if hasObject s [.table, .view] st.name then .ok s
  else if hasObject s [.index] st.name then
    .error ⟨"there is already an index named " ++ st.name⟩
  else .ok (s ++ [tableObject st])

/-- The call `db.Exec(query)` on a script: the statements run in order, each
committed on its own, and the first error ends the call. -/
def dbExec : List CreateTableIfNotExists → Schema → Schema × Option GoError
  | [], s => (s, none)
  | st :: rest, s =>
    match execCreate st s with
    | .error err => (s, some err)
    | .ok s1 => dbExec rest s1

/-- The Go function `createTables() error`, with the schema it leaves. -/
def createTables (s : Schema) : Schema × Option GoError :=
  dbExec createTablesQuery s

/-! ## `main` -/

/-- Lines `main` writes to the log. -/
inductive MainLog where
  | openFailed (err : GoError)
  | pingFailed (err : GoError)
  | connectionSuccessful
  | createTablesWarning (err : GoError)
  | startingServer
  deriving DecidableEq, Repr

/-- The observable steps of `main`, in order. -/
inductive Event where
  | printed (l : MainLog)
  | fatal (l : MainLog)
  | views (dir ext : String)
  | static (pre root : String)
  | get (path : String)
  | createTables
  | listen (addr : String)
  deriving DecidableEq, Repr

/-- The function `main` (lines 24-76) as the sequence of its steps, given the
errors of `sql.Open` and `db.Ping` and the schema found in the file.
`log.Fatalf` writes its line and exits the process, so nothing follows a
`fatal` step; `app.Listen` serves until the process ends. -/
def main (openErr pingErr : Option GoError) (schema : Schema) : List Event :=
  match openErr with
  | some err => [.fatal (.openFailed err)]
  | none =>
    match pingErr with
    | some err => [.fatal (.pingFailed err)]
    | none =>
      [.printed .connectionSuccessful, .views "./views" ".html",
        .static "/static" "./static", .get "/", .get "/load-content", .createTables]
      ++ (match (createTables schema).2 with
          | some err => [.printed (.createTablesWarning err)]
          | none => [])
      ++ [.printed .startingServer, .listen ":3000"]


/-! ## Vocabulary for the statements -/

/-- The record one pass of the loop body (lines 108-120) appends for a row
that scans: the scanned id and name, and the parsed time, or `Time{}` when
`time.Parse` fails. -/
def recordOf (r : Row) : Player :=
  match timeParse r.createdAt with
  | some t => ⟨r.id, r.name, t⟩
  | none => ⟨r.id, r.name, Time.zero⟩

/-- Ascending order of a list of names under the BINARY collation. -/
def namesAscending (names : List String) : Prop :=
  names.Pairwise (fun a b => binaryLE a.toList b.toList = true)

/-- The character of the decimal digit `d`, for `d` in `0..9`. -/
def digitChar (d : Nat) : Char := Char.ofNat ('0'.toNat + d)

/-- A number below 100 written with two digits. -/
def twoDigits (n : Nat) : List Char := [digitChar (n / 10), digitChar (n % 10)]

/-- A number below 10000 written with four digits. -/
def fourDigits (n : Nat) : List Char :=
  [digitChar (n / 1000), digitChar (n / 100 % 10), digitChar (n / 10 % 10), digitChar (n % 10)]

/-- The text `YYYY-MM-DD HH:MM:SS` of a date-time, as the spec writes the
pattern: zero-padded fields, `-` in the date, one space, `:` in the time. -/
def layoutText (t : Time) : String :=
  String.mk (fourDigits t.year.toNat ++ '-' :: (twoDigits t.month ++ '-' :: (twoDigits t.day
    ++ ' ' :: (twoDigits t.hour ++ ':' :: (twoDigits t.min ++ ':' :: twoDigits t.sec)))))

/-- A date-time that a text `YYYY-MM-DD HH:MM:SS` denotes: a year of four
digits, a day that exists in its month, a time of day in whole seconds. -/
def civil (t : Time) : Prop :=
  0 ≤ t.year ∧ t.year ≤ 9999 ∧ 1 ≤ t.month ∧ t.month ≤ 12 ∧ 1 ≤ t.day
    ∧ t.day ≤ daysIn t.month t.year ∧ t.hour < 24 ∧ t.min < 60 ∧ t.sec < 60 ∧ t.nsec = 0

instance : DecidablePred civil := fun t =>
  inferInstanceAs (Decidable (0 ≤ t.year ∧ t.year ≤ 9999 ∧ 1 ≤ t.month ∧ t.month ≤ 12
    ∧ 1 ≤ t.day ∧ t.day ≤ daysIn t.month t.year ∧ t.hour < 24 ∧ t.min < 60 ∧ t.sec < 60
    ∧ t.nsec = 0))

/-- The pattern `YYYY-MM-DD HH:MM:SS` read as the spec writes it: nineteen
characters, digits in the field positions and the separators between them. -/
def matchesPattern (s : String) : Bool :=
  match s.toList with
  | [y1, y2, y3, y4, a, m1, m2, b, d1, d2, c, h1, h2, e, n1, n2, f, s1, s2] =>
    [y1, y2, y3, y4, m1, m2, d1, d2, h1, h2, n1, n2, s1, s2].all isDigitChar
      && a == '-' && b == '-' && c == ' ' && e == ':' && f == ':'
  | _ => false

/-! ## Lemmas on the row loop -/

/-- The loop stops with a scan error exactly when some delivered row fails to scan. -/
theorem rowLoop_scanFailed_iff (l : List ScanResult) (acc : List Player) (log : List LogEntry) :
    (∃ e, (rowLoop l acc log).1 = .scanFailed e) ↔ ∃ e, ScanResult.fail e ∈ l := by
  induction l generalizing acc log with
  | nil => simp [rowLoop]
  | cons x xs ih =>
    cases x with
    | fail err =>
      simp only [rowLoop]
      constructor
      · intro _; exact ⟨err, List.mem_cons_self _ _⟩
      · intro _; exact ⟨err, rfl⟩
    | ok id name c =>
      simp only [rowLoop]
      cases hp : timeParse c with
      | some t =>
        simp only [ih]
        constructor
        · rintro ⟨e, he⟩; exact ⟨e, List.mem_cons_of_mem _ he⟩
        · rintro ⟨e, he⟩
          rcases List.mem_cons.mp he with h | h
          · cases h
          · exact ⟨e, h⟩
      | none =>
        simp only [ih]
        constructor
        · rintro ⟨e, he⟩; exact ⟨e, List.mem_cons_of_mem _ he⟩
        · rintro ⟨e, he⟩
          rcases List.mem_cons.mp he with h | h
          · cases h
          · exact ⟨e, h⟩

/-- The error of `getPlayers`, by cases on how the row loop ends. -/
theorem getPlayers_opened_result (rows : Rows) (w : World) :
    (getPlayers (.opened rows) w).1 =
      match (rowLoop rows.pending [] w.log).1 with
      | .scanFailed err => (none, some err)
      | .exhausted players =>
        match rows.iterErr with
        | some err => (none, some err)
        | none => (some players, none) := by
  unfold getPlayers
  simp only
  rcases h : rowLoop rows.pending [] w.log with ⟨ex, log⟩
  cases ex with
  | scanFailed err => simp
  | exhausted players =>
    cases hi : rows.iterErr with
    | some err => simp
    | none => simp

/-- Claim C2. `getPlayers` returns a non-nil error exactly when `db.Query` fails, some
delivered row fails to scan, or the iteration reports an error; and whenever
the error is non-nil the returned slice is nil. -/
theorem getPlayers_error_iff (q : QueryResult) (w : World) :
    ((getPlayers q w).1.2 ≠ none ↔
      ((∃ err, q = .failed err) ∨
        ∃ rows, q = .opened rows ∧
          ((∃ err, ScanResult.fail err ∈ rows.pending) ∨ rows.iterErr ≠ none)))
    ∧ ((getPlayers q w).1.2 ≠ none → (getPlayers q w).1.1 = none) := by
  cases q with
  | failed err => simp [getPlayers]
  | opened rows =>
    rw [getPlayers_opened_result]
    have hs := rowLoop_scanFailed_iff rows.pending [] w.log
    cases hl : (rowLoop rows.pending [] w.log).1 with
    | scanFailed err =>
      have : ∃ e, ScanResult.fail e ∈ rows.pending := hs.mp ⟨err, hl⟩
      simp [this]
    | exhausted players =>
      have hno : ¬ ∃ e, ScanResult.fail e ∈ rows.pending := by
        intro h
        obtain ⟨e, he⟩ := hs.mpr h
        rw [hl] at he
        cases he
      cases hi : rows.iterErr with
      | some err => simp [hi]
      | none => simp [hi, hno]

/-- Witness for C2: a cursor that delivers one good row and then a row that
fails to scan; the error is returned and the slice is nil. -/
theorem getPlayers_error_iff_witness :
    (getPlayers (.opened ⟨[.ok 1 "Alice" "2024-03-05 14:07:09", .fail ⟨"scan"⟩], none⟩)
        ⟨0, []⟩).1.2 ≠ none
    ∧ (getPlayers (.opened ⟨[.ok 1 "Alice" "2024-03-05 14:07:09", .fail ⟨"scan"⟩], none⟩)
        ⟨0, []⟩).1.1 = none :=
  have h := getPlayers_error_iff
    (.opened ⟨[.ok 1 "Alice" "2024-03-05 14:07:09", .fail ⟨"scan"⟩], none⟩) ⟨0, []⟩
  have he := h.1.mpr (Or.inr ⟨_, rfl, Or.inl ⟨⟨"scan"⟩, by decide⟩⟩)
  ⟨he, h.2 he⟩

/-- Claim C3. On an empty `players` table, with the query running without error,
`getPlayers` returns the empty non-nil slice and a nil error. -/
theorem getPlayers_empty_table (w : World) :
    queryPlayers [] = .opened ⟨[], none⟩
    ∧ (getPlayers (queryPlayers []) w).1 = (some [], none) := by
  constructor
  · rfl
  · rfl

/-- Claim C9. Whatever `db.Query` returns and however the loop is left (scan
error, iteration error, normal return), the number of open cursors after
`getPlayers` equals the number before it; on a failed query it is never
raised. -/
theorem getPlayers_releases_cursor (q : QueryResult) (w : World) :
    (getPlayers q w).2.openCursors = w.openCursors := by
  cases q with
  | failed err => rfl
  | opened rows =>
    unfold getPlayers
    simp only
    rcases h : rowLoop rows.pending [] w.log with ⟨ex, log⟩
    cases ex with
    | scanFailed err => simp
    | exhausted players =>
      cases hi : rows.iterErr with
      | some err => simp
      | none => simp

/-- The handler's reply, by cases on the error `getPlayers` returns. -/
theorem indexHandler_reply (q : QueryResult) (w : World) :
    (indexHandler q w).1 =
      match (getPlayers q w).1.2 with
      | some _ => .sendString 500 "Error fetching players"
      | none =>
        .render "index"
          [("Title", .str "Player List"), ("Players", .players (getPlayers q w).1.1)] := by
  unfold indexHandler
  rcases h : getPlayers q w with ⟨⟨ps, err⟩, w1⟩
  cases err with
  | some e => rfl
  | none => rfl

/-- Claim C5. When `getPlayers` returns an error, the `GET /` handler answers with
status 500 and the body "Error fetching players", and makes no `Render` call. -/
theorem indexHandler_error (q : QueryResult) (w : World)
    (herr : (getPlayers q w).1.2 ≠ none) :
    (indexHandler q w).1 = .sendString 500 "Error fetching players"
    ∧ ∀ name bindings, (indexHandler q w).1 ≠ .render name bindings := by
  rw [indexHandler_reply]
  cases h : (getPlayers q w).1.2 with
  | none => exact absurd h herr
  | some e => simp

/-- Witness for C5: the query fails because the storage is unreachable. -/
theorem indexHandler_error_witness :
    (getPlayers (.failed ⟨"unable to open database file"⟩) ⟨0, []⟩).1.2 ≠ none
    ∧ (indexHandler (.failed ⟨"unable to open database file"⟩) ⟨0, []⟩).1
        = .sendString 500 "Error fetching players" :=
  ⟨by decide,
    (indexHandler_error (.failed ⟨"unable to open database file"⟩) ⟨0, []⟩ (by decide)).1⟩

/-- Claim C6. When `getPlayers` returns a nil error, it returns a non-nil slice
`ps`, and the `GET /` handler renders the template "index" with the two
bindings Title = "Player List" and Players = `ps`, the whole slice as
returned. -/
theorem indexHandler_success (q : QueryResult) (w : World)
    (hok : (getPlayers q w).1.2 = none) :
    ∃ ps, (getPlayers q w).1.1 = some ps ∧
      (indexHandler q w).1 =
        .render "index" [("Title", .str "Player List"), ("Players", .players (some ps))] := by
  rw [indexHandler_reply, hok]
  cases q with
  | failed err => simp [getPlayers] at hok
  | opened rows =>
    rw [getPlayers_opened_result] at hok ⊢
    cases hl : (rowLoop rows.pending [] w.log).1 with
    | scanFailed err => simp [hl] at hok
    | exhausted players =>
      cases hi : rows.iterErr with
      | some err => simp [hl, hi] at hok
      | none => exact ⟨players, rfl, rfl⟩

/-- Witness for C6: two stored players, one with an unparsable timestamp. -/
theorem indexHandler_success_witness :
    ∃ ps,
      (getPlayers (queryPlayers [⟨1, "Bob", "x"⟩, ⟨2, "Alice", "2024-03-05 14:07:09"⟩])
        ⟨0, []⟩).1.1 = some ps ∧
      (indexHandler (queryPlayers [⟨1, "Bob", "x"⟩, ⟨2, "Alice", "2024-03-05 14:07:09"⟩])
        ⟨0, []⟩).1 =
        .render "index" [("Title", .str "Player List"), ("Players", .players (some ps))] :=
  indexHandler_success _ _ (by decide)

/-! ## Schema creation -/

/-- Objects appended to a schema are found by `hasObject` like the others. -/
theorem hasObject_append (s t : Schema) (kinds : List ObjKind) (name : String) :
    hasObject (s ++ t) kinds name = (hasObject s kinds name || hasObject t kinds name) := by
  simp [hasObject, List.any_append]

/-- A statement whose table (or a view of that name) exists changes nothing. -/
theorem execCreate_present (st : CreateTableIfNotExists) (s : Schema)
    (h : hasObject s [.table, .view] st.name = true) : execCreate st s = .ok s := by
  simp [execCreate, h]

/-- A statement blocked by an index of the same name fails. -/
theorem execCreate_index (st : CreateTableIfNotExists) (s : Schema)
    (h : hasObject s [.table, .view] st.name = false)
    (hi : hasObject s [.index] st.name = true) :
    execCreate st s = .error ⟨"there is already an index named " ++ st.name⟩ := by
  simp [execCreate, h, hi]

/-- A statement whose name is free adds its table. -/
theorem execCreate_absent (st : CreateTableIfNotExists) (s : Schema)
    (h : hasObject s [.table, .view] st.name = false)
    (hi : hasObject s [.index] st.name = false) :
    execCreate st s = .ok (s ++ [tableObject st]) := by
  simp [execCreate, h, hi]

/-- The two statements of `createTables`, one after the other. -/
theorem createTables_unfold (s : Schema) :
    createTables s =
      match execCreate playersTable s with
      | .error err => (s, some err)
      | .ok s1 =>
        match execCreate matchesTable s1 with
        | .error err => (s1, some err)
        | .ok s2 => (s2, none) := by
  simp only [createTables, createTablesQuery, dbExec]

/-- Claim C7. From any schema state, running `createTables` a second time leaves
the schema the first run produced; and on a schema that already has the
tables `players` and `matches` it changes nothing and returns no error. -/
theorem createTables_idempotent (s : Schema) :
    (createTables (createTables s).1).1 = (createTables s).1
    ∧ (hasObject s [.table] "players" = true → hasObject s [.table] "matches" = true →
        createTables s = (s, none)) := by
  have hsub : ∀ (t : Schema) (n : String), hasObject t [.table] n = true →
      hasObject t [.table, .view] n = true := by
    intro t n h
    simp only [hasObject, List.any_eq_true, Bool.and_eq_true, decide_eq_true_eq] at h ⊢
    obtain ⟨o, ho, hk, hn⟩ := h
    exact ⟨o, ho, by simp at hk; simp [hk], hn⟩
  have p1 : hasObject [tableObject playersTable] [.table, .view] playersTable.name = true := by
    decide
  have p2 : hasObject [tableObject playersTable] [.table, .view] matchesTable.name = false := by
    decide
  have p3 : hasObject [tableObject playersTable] [.index] matchesTable.name = false := by
    decide
  have m1 : hasObject [tableObject matchesTable] [.table, .view] matchesTable.name = true := by
    decide
  constructor
  · cases hp : hasObject s [.table, .view] playersTable.name
    · cases hpi : hasObject s [.index] playersTable.name
      · -- players is created
        have e1 := execCreate_absent playersTable s hp hpi
        have hp1 : hasObject (s ++ [tableObject playersTable]) [.table, .view]
            playersTable.name = true := by simp [hasObject_append, p1]
        have e1b := execCreate_present playersTable _ hp1
        cases hm : hasObject s [.table, .view] matchesTable.name
        · cases hmi : hasObject s [.index] matchesTable.name
          · have hm0 : hasObject (s ++ [tableObject playersTable]) [.table, .view]
                matchesTable.name = false := by simp [hasObject_append, hm, p2]
            have hmi0 : hasObject (s ++ [tableObject playersTable]) [.index]
                matchesTable.name = false := by simp [hasObject_append, hmi, p3]
            have e2 := execCreate_absent matchesTable _ hm0 hmi0
            have hp2 : hasObject (s ++ [tableObject playersTable] ++ [tableObject matchesTable])
                [.table, .view] playersTable.name = true := by
              rw [hasObject_append, hp1]; rfl
            have hm2 : hasObject (s ++ [tableObject playersTable] ++ [tableObject matchesTable])
                [.table, .view] matchesTable.name = true := by
              rw [hasObject_append, m1]; simp
            have h1 : createTables s =
                (s ++ [tableObject playersTable] ++ [tableObject matchesTable], none) := by
              rw [createTables_unfold, e1]; simp only; rw [e2]
            rw [h1]
            simp only
            rw [createTables_unfold, execCreate_present _ _ hp2]
            simp only
            rw [execCreate_present _ _ hm2]
          · have hm0 : hasObject (s ++ [tableObject playersTable]) [.table, .view]
                matchesTable.name = false := by simp [hasObject_append, hm, p2]
            have hmi0 : hasObject (s ++ [tableObject playersTable]) [.index]
                matchesTable.name = true := by simp [hasObject_append, hmi]
            have e2 := execCreate_index matchesTable _ hm0 hmi0
            have h1 : createTables s = (s ++ [tableObject playersTable],
                some ⟨"there is already an index named " ++ matchesTable.name⟩) := by
              rw [createTables_unfold, e1]; simp only; rw [e2]
            rw [h1]
            simp only
            rw [createTables_unfold, e1b]
            simp only
            rw [e2]
        · have hm0 : hasObject (s ++ [tableObject playersTable]) [.table, .view]
              matchesTable.name = true := by simp [hasObject_append, hm]
          have e2 := execCreate_present matchesTable _ hm0
          have h1 : createTables s = (s ++ [tableObject playersTable], none) := by
            rw [createTables_unfold, e1]; simp only; rw [e2]
          rw [h1]
          simp only
          rw [createTables_unfold, e1b]
          simp only
          rw [e2]
      · -- players is blocked by an index
        have e1 := execCreate_index playersTable s hp hpi
        have h1 : createTables s =
            (s, some ⟨"there is already an index named " ++ playersTable.name⟩) := by
          rw [createTables_unfold, e1]
        rw [h1]
        simp only
        rw [h1]
    · -- players exists
      have e1 := execCreate_present playersTable s hp
      cases hm : hasObject s [.table, .view] matchesTable.name
      · cases hmi : hasObject s [.index] matchesTable.name
        · have e2 := execCreate_absent matchesTable s hm hmi
          have hp2 : hasObject (s ++ [tableObject matchesTable]) [.table, .view]
              playersTable.name = true := by simp [hasObject_append, hp]
          have hm2 : hasObject (s ++ [tableObject matchesTable]) [.table, .view]
              matchesTable.name = true := by simp [hasObject_append, m1]
          have h1 : createTables s = (s ++ [tableObject matchesTable], none) := by
            rw [createTables_unfold, e1]; simp only; rw [e2]
          rw [h1]
          simp only
          rw [createTables_unfold, execCreate_present _ _ hp2]
          simp only
          rw [execCreate_present _ _ hm2]
        · have e2 := execCreate_index matchesTable s hm hmi
          have h1 : createTables s =
              (s, some ⟨"there is already an index named " ++ matchesTable.name⟩) := by
            rw [createTables_unfold, e1]; simp only; rw [e2]
          rw [h1]
          simp only
          rw [h1]
      · have e2 := execCreate_present matchesTable s hm
        have h1 : createTables s = (s, none) := by
          rw [createTables_unfold, e1]; simp only; rw [e2]
        rw [h1]
        simp only
        rw [h1]
  · intro hp hm
    rw [createTables_unfold, execCreate_present playersTable s (hsub s _ hp)]
    simp only
    rw [execCreate_present matchesTable s (hsub s _ hm)]

/-- Witness for C7: a schema that already holds both tables. -/
theorem createTables_idempotent_witness :
    createTables [tableObject playersTable, tableObject matchesTable]
      = ([tableObject playersTable, tableObject matchesTable], none) :=
  (createTables_idempotent [tableObject playersTable, tableObject matchesTable]).2
    (by decide) (by decide)

/-! ## Start-up -/

/-- Claim C8. When the database opens and answers the ping but `createTables`
returns an error, `main` logs a warning with that error, then logs the start
line and listens on ":3000", with no fatal exit; when `sql.Open` or `db.Ping`
fails, `main` is a single fatal log line: no route is registered and the
server is never started. -/
theorem main_startup (openErr pingErr : Option GoError) (schema : Schema) :
    (openErr = none → pingErr = none → ∀ err, (createTables schema).2 = some err →
      main openErr pingErr schema =
        [.printed .connectionSuccessful, .views "./views" ".html",
          .static "/static" "./static", .get "/", .get "/load-content", .createTables,
          .printed (.createTablesWarning err), .printed .startingServer, .listen ":3000"])
    ∧ ((openErr ≠ none ∨ pingErr ≠ none) →
        (∃ l, main openErr pingErr schema = [.fatal l])
        ∧ (∀ path, Event.get path ∉ main openErr pingErr schema)
        ∧ (∀ addr, Event.listen addr ∉ main openErr pingErr schema)) := by
  constructor
  · intro ho hp err herr
    subst ho
    subst hp
    simp [main, herr]
  · intro h
    cases openErr with
    | some e => simp [main]
    | none =>
      cases pingErr with
      | some e => simp [main]
      | none => simp at h

/-- Witness for C8: an index named `matches` makes `createTables` fail, and the
server still starts; a failed ping ends `main` at once. -/
theorem main_startup_witness :
    main none none [⟨.index, "matches", []⟩] =
        [.printed .connectionSuccessful, .views "./views" ".html",
          .static "/static" "./static", .get "/", .get "/load-content", .createTables,
          .printed (.createTablesWarning ⟨"there is already an index named matches"⟩),
          .printed .startingServer, .listen ":3000"]
    ∧ (∃ l, main none (some ⟨"database is locked"⟩) [] = [.fatal l]) :=
  ⟨(main_startup none none [⟨.index, "matches", []⟩]).1 rfl rfl
      ⟨"there is already an index named matches"⟩ (by decide),
    ((main_startup none (some ⟨"database is locked"⟩) []).2 (Or.inr (by decide))).1⟩

/-! ## Order of the result -/

/-- On rows that all scan, the loop runs to the end and appends one record per
row, in order. -/
theorem rowLoop_deliver (rows : List Row) (acc : List Player) (log : List LogEntry) :
    (rowLoop (deliver rows) acc log).1 = .exhausted (acc ++ rows.map recordOf) := by
  induction rows generalizing acc log with
  | nil => simp [deliver, rowLoop]
  | cons r rs ih =>
    have hcons : deliver (r :: rs) = ScanResult.ok r.id r.name r.createdAt :: deliver rs := rfl
    rw [hcons]
    simp only [rowLoop]
    cases hp : timeParse r.createdAt with
    | some t =>
      simp only
      rw [ih]
      simp [recordOf, hp]
    | none =>
      simp only
      rw [ih]
      simp [recordOf, hp]

/-- When every delivered row scans and the iteration ends without error,
`getPlayers` returns one record per row, in the order of delivery. -/
theorem getPlayers_deliver (rows : List Row) (w : World) :
    (getPlayers (.opened ⟨deliver rows, none⟩) w).1 = (some (rows.map recordOf), none) := by
  rw [getPlayers_opened_result]
  simp only [rowLoop_deliver]
  simp

/-- The record of a row keeps its name. -/
theorem recordOf_Name (r : Row) : (recordOf r).Name = r.name := by
  unfold recordOf
  cases timeParse r.createdAt <;> rfl

/-- The record of a row keeps its id. -/
theorem recordOf_ID (r : Row) : (recordOf r).ID = r.id := by
  unfold recordOf
  cases timeParse r.createdAt <;> rfl

/-- The BINARY collation compares any two texts one way or the other. -/
theorem binaryLE_total (a b : List Char) : binaryLE a b = true ∨ binaryLE b a = true := by
  induction a generalizing b with
  | nil => left; simp [binaryLE]
  | cons x xs ih =>
    cases b with
    | nil => right; simp [binaryLE]
    | cons y ys =>
      simp only [binaryLE]
      by_cases h1 : x.toNat < y.toNat
      · left; simp [h1]
      · by_cases h2 : y.toNat < x.toNat
        · right; simp [h2]
        · simp only [h1, h2, if_false]
          exact ih ys

/-- The BINARY collation is transitive. -/
theorem binaryLE_trans (a b c : List Char) (hab : binaryLE a b = true)
    (hbc : binaryLE b c = true) : binaryLE a c = true := by
  induction a generalizing b c with
  | nil => simp [binaryLE]
  | cons x xs ih =>
    cases b with
    | nil => simp [binaryLE] at hab
    | cons y ys =>
      cases c with
      | nil => simp [binaryLE] at hbc
      | cons z zs =>
        simp only [binaryLE] at hab hbc ⊢
        by_cases h1 : x.toNat < y.toNat
        · by_cases h2 : y.toNat < z.toNat
          · have : x.toNat < z.toNat := by omega
            simp [this]
          · by_cases h3 : z.toNat < y.toNat
            · simp [h2, h3] at hbc
            · have : x.toNat < z.toNat := by omega
              simp [this]
        · by_cases h1b : y.toNat < x.toNat
          · simp [h1, h1b] at hab
          · simp only [h1, h1b, if_false] at hab
            by_cases h2 : y.toNat < z.toNat
            · have : x.toNat < z.toNat := by omega
              simp [this]
            · by_cases h3 : z.toNat < y.toNat
              · simp [h2, h3] at hbc
              · simp only [h2, h3, if_false] at hbc
                have e1 : ¬ x.toNat < z.toNat := by omega
                have e2 : ¬ z.toNat < x.toNat := by omega
                simp only [e1, e2, if_false]
                exact ih ys zs hab hbc

/-- The rows of `ORDER BY name` are in ascending name order. -/
theorem orderByName_ascending (table : List Row) :
    namesAscending ((orderByName table).map Row.name) := by
  haveI : IsTotal Row nameLE := ⟨fun a b => binaryLE_total a.name.toList b.name.toList⟩
  haveI : IsTrans Row nameLE :=
    ⟨fun a b c hab hbc => binaryLE_trans a.name.toList b.name.toList c.name.toList hab hbc⟩
  have h : List.Sorted nameLE (orderByName table) := List.sorted_insertionSort nameLE table
  unfold namesAscending
  rw [List.pairwise_map]
  exact h

/-- Claim C4. On a `players` table whose rows scan, with the query running without
error, `getPlayers` succeeds; the names of its records are the names of the
rows in the order the `ORDER BY name` query delivers them, which is ascending
and holds every stored name once; and for the players "Alice" and "Bob"
inserted in either order the names are ["Alice", "Bob"]. -/
theorem getPlayers_name_order (table : List Row) (w : World) :
    (∃ ps, (getPlayers (queryPlayers table) w).1 = (some ps, none)
      ∧ ps.map Player.Name = (orderByName table).map Row.name
      ∧ namesAscending (ps.map Player.Name)
      ∧ (ps.map Player.Name).Perm (table.map Row.name))
    ∧ (∀ (i j : Int) (c d : String),
        (getPlayers (queryPlayers [⟨i, "Alice", c⟩, ⟨j, "Bob", d⟩]) w).1.1.map
            (List.map Player.Name) = some ["Alice", "Bob"]
        ∧ (getPlayers (queryPlayers [⟨j, "Bob", d⟩, ⟨i, "Alice", c⟩]) w).1.1.map
            (List.map Player.Name) = some ["Alice", "Bob"]) := by
  have hnames : ∀ rows : List Row, (rows.map recordOf).map Player.Name = rows.map Row.name := by
    intro rows
    simp [List.map_map, Function.comp_def, recordOf_Name]
  constructor
  · refine ⟨(orderByName table).map recordOf, getPlayers_deliver _ w, hnames _, ?_, ?_⟩
    · rw [hnames]; exact orderByName_ascending table
    · rw [hnames]
      exact (List.perm_insertionSort nameLE table).map Row.name
  · intro i j c d
    have hAB : nameLE ⟨i, "Alice", c⟩ ⟨j, "Bob", d⟩ := by
      show binaryLE "Alice".toList "Bob".toList = true
      decide
    have hBA : ¬ nameLE ⟨j, "Bob", d⟩ ⟨i, "Alice", c⟩ := by
      show ¬ (binaryLE "Bob".toList "Alice".toList = true)
      decide
    constructor
    · simp only [queryPlayers, getPlayers_deliver, Option.map, hnames]
      simp [orderByName, List.insertionSort, List.orderedInsert, hAB]
    · simp only [queryPlayers, getPlayers_deliver, Option.map, hnames]
      simp [orderByName, List.insertionSort, List.orderedInsert, hBA]

/-! ## `time.Parse` on texts of the form `YYYY-MM-DD HH:MM:SS` -/

/-- The code of a digit character. -/
theorem digitChar_toNat (d : Nat) (h : d < 10) : (digitChar d).toNat = 48 + d := by
  interval_cases d <;> rfl

/-- A digit character passes the digit test. -/
theorem isDigitChar_digitChar (d : Nat) (h : d < 10) : isDigitChar (digitChar d) = true := by
  simp only [isDigitChar, digitChar_toNat d h, Bool.and_eq_true, decide_eq_true_eq]
  have h0 : '0'.toNat = 48 := rfl
  have h9 : '9'.toNat = 57 := rfl
  omega

/-- A digit character has the value of its digit. -/
theorem digitVal_digitChar (d : Nat) (h : d < 10) : digitVal (digitChar d) = d := by
  simp [digitVal, digitChar_toNat d h]

/-- A digit character is none of the characters below `'0'`. -/
theorem digitChar_ne (d : Nat) (h : d < 10) (c : Char) (hc : c.toNat < 48) :
    digitChar d ≠ c := by
  intro e
  have := congrArg Char.toNat e
  rw [digitChar_toNat d h] at this
  omega

/-- Reading two digits gives their number. -/
theorem getnum_twoDigits (n : Nat) (h : n < 100) (rest : List Char) (fixed : Bool) :
    getnum (twoDigits n ++ rest) fixed = some (n, rest) := by
  have h1 : n / 10 < 10 := by omega
  have h2 : n % 10 < 10 := by omega
  simp [getnum, twoDigits, isDigit, isDigitChar_digitChar _ h1, isDigitChar_digitChar _ h2,
    digitVal_digitChar _ h1, digitVal_digitChar _ h2]
  omega

/-- Reading four digit characters gives their number. -/
theorem atoi_digits (a b c d : Nat) (h1 : a < 10) (h2 : b < 10) (h3 : c < 10) (h4 : d < 10) :
    atoi [digitChar a, digitChar b, digitChar c, digitChar d]
      = some ((a * 1000 + b * 100 + c * 10 + d : Nat) : Int) := by
  have e1 := digitChar_toNat _ h1
  have e2 := digitChar_toNat _ h2
  have e3 := digitChar_toNat _ h3
  have e4 := digitChar_toNat _ h4
  have hm : digitChar a ≠ '-' := digitChar_ne _ h1 _ (by decide)
  have hp : digitChar a ≠ '+' := digitChar_ne _ h1 _ (by decide)
  have h0 : '0'.toNat = 48 := rfl
  have h9 : '9'.toNat = 57 := rfl
  have l4 : ∀ x, x ≤ 999 → leadingInt [digitChar d] x = some (x * 10 + d, []) := by
    intro x hx
    simp only [leadingInt, e4, h0, h9]
    rw [if_neg (by omega), if_neg (by omega), if_neg (by omega)]
    congr 2
    omega
  have l3 : ∀ x, x ≤ 99 →
      leadingInt [digitChar c, digitChar d] x = some ((x * 10 + c) * 10 + d, []) := by
    intro x hx
    rw [leadingInt]
    simp only [e3, h0, h9]
    rw [if_neg (by omega), if_neg (by omega), if_neg (by omega)]
    have : x * 10 + (48 + c) - 48 = x * 10 + c := by omega
    rw [this]
    exact l4 _ (by omega)
  have l2 : ∀ x, x ≤ 9 →
      leadingInt [digitChar b, digitChar c, digitChar d] x
        = some (((x * 10 + b) * 10 + c) * 10 + d, []) := by
    intro x hx
    rw [leadingInt]
    simp only [e2, h0, h9]
    rw [if_neg (by omega), if_neg (by omega), if_neg (by omega)]
    have : x * 10 + (48 + b) - 48 = x * 10 + b := by omega
    rw [this]
    exact l3 _ (by omega)
  have l1 : leadingInt [digitChar a, digitChar b, digitChar c, digitChar d] 0
      = some (a * 1000 + b * 100 + c * 10 + d, []) := by
    rw [leadingInt]
    simp only [e1, h0, h9]
    rw [if_neg (by omega), if_neg (by omega), if_neg (by omega)]
    have : 0 * 10 + (48 + a) - 48 = a := by omega
    rw [this, l2 _ (by omega)]
    congr 2
    omega
  simp [atoi, hm, hp, l1]

/-- Reading a four-digit year gives its number. -/
theorem atoi_fourDigits (n : Nat) (h : n ≤ 9999) : atoi (fourDigits n) = some (n : Int) := by
  have h1 : n / 1000 < 10 := by omega
  have h2 : n / 100 % 10 < 10 := by omega
  have h3 : n / 10 % 10 < 10 := by omega
  have h4 : n % 10 < 10 := by omega
  rw [fourDigits, atoi_digits _ _ _ _ h1 h2 h3 h4]
  congr 2
  omega

/-- The four characters of the year are taken off the front as a block. -/
theorem fourDigits_front (n : Nat) (h : n ≤ 9999) (rest : List Char) :
    (fourDigits n ++ rest).length ≥ 4 ∧ isDigit (fourDigits n ++ rest) 0 = true
      ∧ (fourDigits n ++ rest).take 4 = fourDigits n
      ∧ (fourDigits n ++ rest).drop 4 = rest := by
  have h1 : n / 1000 < 10 := by omega
  simp [fourDigits, isDigit, isDigitChar_digitChar _ h1]

/-- A one-character separator of the layout is consumed from the value. -/
theorem skip_separator (c : Char) (hc : c ≠ ' ') (rest : List Char) :
    skip (c :: rest) [c] = some rest := by
  simp [skip, skipAux, hc]

/-- The space of the layout is consumed before a digit. -/
theorem skip_space (n : Nat) (h : n < 100) (rest : List Char) :
    skip (' ' :: (twoDigits n ++ rest)) [' '] = some (twoDigits n ++ rest) := by
  have h1 : n / 10 < 10 := by omega
  have hne : digitChar (n / 10) ≠ ' ' := digitChar_ne _ h1 _ (by decide)
  simp [skip, skipAux, cutspace, twoDigits, hne]

/-- Round trip: the text `YYYY-MM-DD HH:MM:SS` of a date-time parses to that
date-time. -/
theorem timeParse_layoutText (t : Time) (h : civil t) : timeParse (layoutText t) = some t := by
  rcases t with ⟨year, month, day, hour, min, sec, nsec⟩
  simp only [civil] at h
  obtain ⟨hy0, hy1, hm1, hm2, hd1, hd2, hh, hmi, hs, hn⟩ := h
  lift year to ℕ using hy0
  subst hn
  have hy : year ≤ 9999 := by exact_mod_cast hy1
  have hm : month < 100 := by omega
  have hd : day < 100 := by
    have : daysIn month (year : Int) ≤ 31 := by
      unfold daysIn
      split_ifs <;> omega
    omega
  unfold timeParse layoutText
  simp only [Int.toNat_ofNat, String.toList]
  obtain ⟨f1, f2, f3, f4⟩ := fourDigits_front year hy
    ('-' :: (twoDigits month ++ '-' :: (twoDigits day
    ++ ' ' :: (twoDigits hour ++ ':' :: (twoDigits min ++ ':' :: twoDigits sec)))))
  rw [if_neg (by rw [f2]; simp; omega)]
  simp only [f3, f4, atoi_fourDigits year hy, skip_separator '-' (by decide),
    getnum_twoDigits month hm]
  rw [if_neg (by omega)]
  simp only [skip_separator '-' (by decide), getnum_twoDigits day hd,
    skip_space hour (by omega), getnum_twoDigits hour (by omega)]
  rw [if_neg (by omega)]
  simp only [skip_separator ':' (by decide), getnum_twoDigits min (by omega)]
  rw [if_neg (by omega)]
  have hsec : getnum (twoDigits sec) true = some (sec, []) := by
    have := getnum_twoDigits sec (by omega) [] true
    simpa using this
  have hfrac : fracSecond [] = some (0, []) := by decide
  simp only [skip_separator ':' (by decide), hsec]
  rw [if_neg (by omega)]
  simp only [hfrac]
  rw [if_neg (by simp), if_neg (by omega)]

/-! ## Rows and their records -/

/-- Counterexample to C1 as stated.  The text "2024-03-05 14:07:09.5" is not of
the form `YYYY-MM-DD HH:MM:SS`, yet `time.Parse` accepts it (a fractional
second may follow the seconds field although the layout has none), so the
record of the row carries the parsed time and not the zero time.  And a
successful query whose iteration then reports an error makes `getPlayers`
return that error, whatever rows were delivered before. -/
theorem getPlayers_pattern_counterexample :
    matchesPattern "2024-03-05 14:07:09.5" = false
    ∧ (getPlayers (.opened ⟨[.ok 1 "Alice" "2024-03-05 14:07:09.5"], none⟩) ⟨0, []⟩).1
        = (some [⟨1, "Alice", ⟨2024, 3, 5, 14, 7, 9, 500000000⟩⟩], none)
    ∧ (⟨2024, 3, 5, 14, 7, 9, 500000000⟩ : Time) ≠ Time.zero
    ∧ matchesPattern "05/03/2024" = false
    ∧ (getPlayers (.opened ⟨[.ok 1 "Alice" "05/03/2024"], some ⟨"disk I/O error"⟩⟩) ⟨0, []⟩).1
        = (none, some ⟨"disk I/O error"⟩) := by
  decide

/-- Claim C1, amended. When every delivered row scans and the iteration ends
without error, `getPlayers` returns no error and one record per row; and for
a row whose `created_at` text `time.Parse` rejects, the record at the row's
position has the row's id and name and the zero time. -/
theorem getPlayers_unparsed_row (rows : List Row) (w : World) (i : Nat) (r : Row)
    (hr : rows[i]? = some r) (hp : timeParse r.createdAt = none) :
    (getPlayers (.opened ⟨deliver rows, none⟩) w).1.2 = none
    ∧ ∃ ps, (getPlayers (.opened ⟨deliver rows, none⟩) w).1.1 = some ps
        ∧ ps.length = rows.length
        ∧ ps[i]? = some ⟨r.id, r.name, Time.zero⟩ := by
  rw [getPlayers_deliver]
  refine ⟨rfl, rows.map recordOf, rfl, by simp, ?_⟩
  rw [List.getElem?_map, hr]
  simp [recordOf, hp]

/-- Witness for C1: a row whose timestamp is in RFC 3339 form. -/
theorem getPlayers_unparsed_row_witness :
    (getPlayers (.opened ⟨deliver [⟨7, "Alice", "2024-03-05T14:07:09Z"⟩], none⟩) ⟨0, []⟩).1.2
        = none
    ∧ ∃ ps, (getPlayers (.opened ⟨deliver [⟨7, "Alice", "2024-03-05T14:07:09Z"⟩], none⟩)
          ⟨0, []⟩).1.1 = some ps
        ∧ ps.length = [(⟨7, "Alice", "2024-03-05T14:07:09Z"⟩ : Row)].length
        ∧ ps[0]? = some ⟨7, "Alice", Time.zero⟩ :=
  getPlayers_unparsed_row [⟨7, "Alice", "2024-03-05T14:07:09Z"⟩] ⟨0, []⟩ 0
    ⟨7, "Alice", "2024-03-05T14:07:09Z"⟩ rfl (by decide)

/-- Claim C10. When the query, every row scan and the iteration succeed,
`getPlayers` returns exactly one record per delivered row, in the same order;
the record of a row has the row's id and name; its time is the date-time the
`created_at` text denotes when the text has the form `YYYY-MM-DD HH:MM:SS`
("2024-03-05 14:07:09" gives 5 March 2024, 14:07:09); and replacing one row by
any other, for instance one whose timestamp does not parse, leaves the record
at every other position as it was. -/
theorem getPlayers_maps_rows (rows : List Row) (w : World) :
    (getPlayers (.opened ⟨deliver rows, none⟩) w).1 = (some (rows.map recordOf), none)
    ∧ (∀ r : Row, (recordOf r).ID = r.id ∧ (recordOf r).Name = r.name)
    ∧ (∀ (r : Row) (t : Time), civil t → r.createdAt = layoutText t →
        (recordOf r).CreatedAt = t)
    ∧ (∀ (id : Int) (name : String),
        recordOf ⟨id, name, "2024-03-05 14:07:09"⟩ = ⟨id, name, ⟨2024, 3, 5, 14, 7, 9, 0⟩⟩)
    ∧ (∀ (j : Nat) (r1 : Row) (i : Nat), i ≠ j →
        (getPlayers (.opened ⟨deliver (rows.set j r1), none⟩) w).1.1.map (fun ps => ps[i]?)
          = (getPlayers (.opened ⟨deliver rows, none⟩) w).1.1.map (fun ps => ps[i]?)) := by
  refine ⟨getPlayers_deliver rows w, fun r => ⟨recordOf_ID r, recordOf_Name r⟩, ?_, ?_, ?_⟩
  · intro r t ht hr
    unfold recordOf
    rw [hr, timeParse_layoutText t ht]
  · intro id name
    have h : timeParse "2024-03-05 14:07:09" = some ⟨2024, 3, 5, 14, 7, 9, 0⟩ := by decide
    simp only [recordOf, h]
  · intro j r1 i hij
    rw [getPlayers_deliver, getPlayers_deliver]
    simp only [Option.map, List.getElem?_map]
    rw [List.getElem?_set_ne (Ne.symm hij)]

/-- Witness for C10: three rows, the middle one replaced by a row whose
timestamp does not parse; the first record is unchanged and carries the
parsed time. -/
theorem getPlayers_maps_rows_witness :
    civil ⟨2024, 3, 5, 14, 7, 9, 0⟩
    ∧ (recordOf ⟨1, "Alice", layoutText ⟨2024, 3, 5, 14, 7, 9, 0⟩⟩).CreatedAt
        = ⟨2024, 3, 5, 14, 7, 9, 0⟩
    ∧ (getPlayers (.opened ⟨deliver
          ([⟨1, "Alice", "2024-03-05 14:07:09"⟩, ⟨2, "Bob", "2024-03-06 08:00:00"⟩].set 1
            ⟨2, "Bob", "yesterday"⟩), none⟩) ⟨0, []⟩).1.1.map (fun ps => ps[0]?)
        = (getPlayers (.opened ⟨deliver
          [⟨1, "Alice", "2024-03-05 14:07:09"⟩, ⟨2, "Bob", "2024-03-06 08:00:00"⟩], none⟩)
            ⟨0, []⟩).1.1.map (fun ps => ps[0]?) :=
  have h := getPlayers_maps_rows
    [⟨1, "Alice", "2024-03-05 14:07:09"⟩, ⟨2, "Bob", "2024-03-06 08:00:00"⟩] ⟨0, []⟩
  ⟨by decide,
    h.2.2.1 ⟨1, "Alice", layoutText ⟨2024, 3, 5, 14, 7, 9, 0⟩⟩ ⟨2024, 3, 5, 14, 7, 9, 0⟩
      (by decide) rfl,
    h.2.2.2.2 1 ⟨2, "Bob", "yesterday"⟩ 0 (by decide)⟩

end SoccerStats
